import Mathlib

/-!
Shallow embedding of src/gateway-app/src-tauri/src/lib.rs.

The file has three commands:
  read_app_config, write_app_config  (config store over the filesystem),
  read_gateway_logs                  (tail of the daily log file).

The filesystem is modelled explicitly: files are an association list from
path strings to contents, directories a list of path strings, and the
environmental outcome of each fallible OS primitive (create_dir_all,
fs::write, fs::read_to_string, File::open) is part of the state, so that
success and failure paths of the Rust code are both expressible.
-/

namespace GatewayApp

/-- Environmental outcomes of the fallible filesystem primitives used by the
config store: some e means the primitive fails with OS error text e. -/
structure ConfigEnv where
  mkdirErr : Option String
  writeErr : Option String
  readErr : Option String


/-- State threaded through the config commands: the result of the host
app_config_dir lookup (tauri), the files and directories on disk, and the
environment of primitive outcomes. -/
structure AppWorld where
  configDirRes : Except String String
  files : List (String × String)
  dirs : List String
  env : ConfigEnv


/-- Modelled from the spec: the bundled default payload app-config.json is
pulled in by the Rust code with an include_str of a file that is not part
of src/; the spec fixes it as an opaque fixed payload (its inline fallback
reading is a small theme object), and no claim depends on its exact text. -/
def default_config_content : String := "\x7b\"theme\": \"light\"\x7d"

/-- Fixed file name joined onto the per-user config directory. -/
def cfgFileName : String := "app-config.json"

/-- Embeds get_app_config_path: resolves the per-user config directory and
joins the fixed file name. Returns the pair (directory, joined path); the
directory component is exactly what Path::parent of the joined path yields
in the Rust code, recorded here so the callers can name it. -/
def get_app_config_path (w : AppWorld) : Except String (String × String) :=
  match w.configDirRes with
  | .error e => .error ("Failed to get app config directory: " ++ e)
  | .ok d => .ok (d, d ++ "/" ++ cfgFileName)

/-- Embeds fs::create_dir_all: on success records the directory; on an
environmental failure returns the raw OS error (callers add context). -/
def create_dir_all (w : AppWorld) (p : String) : AppWorld × Except String Unit :=
  match w.env.mkdirErr with
  | some e => (w, .error e)
  | none => ({ w with dirs := p :: w.dirs }, .ok ())

/-- Embeds fs::write: on success the file now holds exactly the given text
(newest binding first, List.lookup reads the newest); on an environmental
failure returns the raw OS error and leaves the files untouched. -/
def fs_write (w : AppWorld) (p c : String) : AppWorld × Except String Unit :=
  match w.env.writeErr with
  | some e => (w, .error e)
  | none => ({ w with files := (p, c) :: w.files }, .ok ())

/-- Embeds fs::read_to_string: returns the stored contents verbatim, or the
raw OS error on an environmental failure or a missing file. -/
def read_to_string (w : AppWorld) (p : String) : Except String String :=
  match w.env.readErr with
  | some e => .error e
  | none =>
    match w.files.lookup p with
    | some c => .ok c
    | none => .error "entity not found"

/-- Embeds read_app_config: resolve the path; if the file does not exist,
create the parent directory, write the default payload and return it;
otherwise read and return the stored contents. Error messages carry the
same context text as the Rust format strings. -/
def read_app_config (w : AppWorld) : AppWorld × Except String String :=
  match get_app_config_path w with
  | .error e => (w, .error e)
  | .ok (parent, config_path) =>
    match w.files.lookup config_path with
    | none =>
      match create_dir_all w parent with
      | (w₁, .error e) => (w₁, .error ("Failed to create config directory: " ++ e))
      | (w₁, .ok ()) =>
        match fs_write w₁ config_path default_config_content with
        | (w₂, .error e) => (w₂, .error ("Failed to write default config: " ++ e))
        | (w₂, .ok ()) => (w₂, .ok default_config_content)
    | some _ =>
      match read_to_string w config_path with
      | .error e => (w, .error ("Failed to read app config: " ++ e))
      | .ok content => (w, .ok content)

/-- Embeds write_app_config: resolve the path, create the parent directory,
then overwrite the file with the given text exactly. -/
def write_app_config (w : AppWorld) (config : String) : AppWorld × Except String Unit :=
  match get_app_config_path w with
  | .error e => (w, .error e)
  | .ok (parent, config_path) =>
    match create_dir_all w parent with
    | (w₁, .error e) => (w₁, .error ("Failed to create config directory: " ++ e))
    | (w₁, .ok ()) =>
      match fs_write w₁ config_path config with
      | (w₂, .error e) => (w₂, .error ("Failed to write app config: " ++ e))
      | (w₂, .ok ()) => (w₂, .ok ())

/-- Outcome of one step of the BufRead::lines iterator: some line for a
successfully decoded line (terminator already stripped), none for a line
whose bytes fail to decode. Lines are lists of characters so that
terminator handling can be stated precisely. -/
def LineEvent : Type := Option (List Char)

/-- A log file on disk: whether File::open succeeds, the OS error text when
it does not, and the sequence of line events the reader yields. -/
structure LogFile where
  openable : Bool
  openErr : String
  events : List (Option (List Char))

/-- The log side of the filesystem: the formatted local date of today
(chrono is external, so the YYYY-MM-DD string is state, recomputed by the
caller of the model) and the files on disk. -/
structure LogFS where
  today : String
  files : List (String × LogFile)

/-- Embeds the path construction of read_gateway_logs:
PathBuf::from(gateway_path).join("logs").join("logs_gateway_app.log." ++ date). -/
def logPath (gateway_path date : String) : String :=
  gateway_path ++ "/logs/" ++ ("logs_gateway_app.log." ++ date)

/-- The fixed sentinel text returned when the log file for today is absent. -/
def noLogsSentinel : List Char := "No logs found for today.".data

/-- Embeds the start index of the tail window:
if all_lines.len() > lines then all_lines.len() - lines else 0. -/
def tailStart (totalLines maxLines : Nat) : Nat :=
  if totalLines > maxLines then totalLines - maxLines else 0

/-- Embeds the join of the selected lines: all_lines[start..].join("\n"),
a single newline between consecutive lines and nothing at either end. -/
def joinNl : List (List Char) → List Char
  | [] => []
  | [l] => l
  | l :: ls => l ++ '\n' :: joinNl ls

/-- The tail computation of read_gateway_logs over the decoded lines. -/
def tailOfDecoded (all_lines : List (List Char)) (maxLines : Nat) : List Char :=
  joinNl (all_lines.drop (tailStart all_lines.length maxLines))

/-- Embeds read_gateway_logs: build the dated path; if absent return the
sentinel as a success; otherwise open the file (failure is an error with
the Rust context text), keep the successfully decoded lines
(.lines().filter_map(line.ok)) and return the joined tail window. -/
def read_gateway_logs (fs : LogFS) (gateway_path : String) (lines : Nat) :
    Except String (List Char) :=
  match fs.files.lookup (logPath gateway_path fs.today) with
  | none => .ok noLogsSentinel
  | some file =>
    if file.openable then
      .ok (tailOfDecoded (file.events.filterMap id) lines)
    else
      .error ("Failed to open log file: " ++ file.openErr)

/-- Splits a character sequence at every newline character; the result is
always nonempty and the newline characters themselves are dropped. -/
def splitNl : List Char → List (List Char)
  | [] => [[]]
  | c :: cs =>
    if c = '\n' then [] :: splitNl cs
    else
      match splitNl cs with
      | [] => [[c]]
      | l :: ls => (c :: l) :: ls

/-- Drops one trailing carriage return, as BufRead::lines does after it has
stripped the newline terminator of a line. -/
def stripCR (l : List Char) : List Char :=
  if l.getLast? = some '\r' then l.dropLast else l

/-- Turns the newline-separated segments of a file into the decoded lines:
every segment but the last was terminated by a newline, so it is stripped
of one trailing carriage return; the last segment was not terminated, so
it is kept as read, except that an empty last segment means the file ended
in a newline and read_line then returns 0 bytes, stopping the iterator. -/
def linesOfParts : List (List Char) → List (List Char)
  | [] => []
  | [p] => if p = [] then [] else [p]
  | p :: ps => stripCR p :: linesOfParts ps

/-- The decoded lines BufRead::lines yields on a text file with the given
characters: segments between newline characters, terminated segments also
stripped of one trailing carriage return, and no final empty segment when
the file ends in a newline. -/
def rustLines (content : List Char) : List (List Char) :=
  linesOfParts (splitNl content)

/-- The line events of a text file that decodes cleanly: every line of
rustLines is a successful event. -/
def textEvents (content : List Char) : List (Option (List Char)) :=
  (rustLines content).map some

/-- A starting world for concrete runs of the config commands: the host
resolves the config directory to "cfg", the disk is empty and every
primitive succeeds. -/
def w0 : AppWorld := ⟨.ok "cfg", [], [], ⟨none, none, none⟩⟩

/-- Base directory used by the concrete log examples. -/
def gwPath : String := "gw"

/-- The formatted local date of the concrete log examples. -/
def todayStr : String := "2026-10-12"

/-- A date other than todayStr, for the date-boundary example. -/
def yesterdayStr : String := "2026-10-11"

/-- Fifty decoded lines: the decimal texts 1 .. 50. -/
def events50 : List (Option (List Char)) :=
  (List.range 50).map (fun i => some (Nat.toDigits 10 (i + 1)))

/-- A readable log file holding the fifty numbered lines. -/
def file50 : LogFile := ⟨true, "", events50⟩

/-- A log filesystem where today has the fifty-line file. -/
def fs50 : LogFS := ⟨todayStr, [(logPath gwPath todayStr, file50)]⟩

/-- A log filesystem with no file at all for today. -/
def fsNoToday : LogFS := ⟨todayStr, []⟩

/-- A readable log file for the date-boundary example. -/
def fileYesterday : LogFile := ⟨true, "", [some "old line".data]⟩

/-- A log filesystem where only yesterday has a file. -/
def fsYesterday : LogFS := ⟨todayStr, [(logPath gwPath yesterdayStr, fileYesterday)]⟩

/-- A readable log file whose single line is the sentinel text itself. -/
def spoofFile : LogFile := ⟨true, "", [some noLogsSentinel]⟩

/-- A log filesystem where today has the sentinel-spoofing file. -/
def fsSpoof : LogFS := ⟨todayStr, [(logPath gwPath todayStr, spoofFile)]⟩

/-- A readable text log file whose characters end in two newlines, so its
last decoded line is empty. -/
def fileTrail : LogFile := ⟨true, "", textEvents ('a' :: '\n' :: '\n' :: [])⟩

/-- A log filesystem where today has fileTrail. -/
def fsTrail : LogFS := ⟨todayStr, [(logPath gwPath todayStr, fileTrail)]⟩

/-- A readable text log file ending in a single newline after a nonempty
line. -/
def fileOneNl : LogFile := ⟨true, "", textEvents ('a' :: '\n' :: [])⟩

/-- A log filesystem where today has fileOneNl. -/
def fsOneNl : LogFS := ⟨todayStr, [(logPath gwPath todayStr, fileOneNl)]⟩

/-- A readable log file with two decoded lines and two decode failures in
between and after them. -/
def fileMix : LogFile := ⟨true, "", [some "x".data, none, some "y".data, none]⟩

/-- The same decoded lines as fileMix with no decode failures. -/
def fileClean : LogFile := ⟨true, "", [some "x".data, some "y".data]⟩

/-- A log filesystem where today has fileMix. -/
def fsMix : LogFS := ⟨todayStr, [(logPath gwPath todayStr, fileMix)]⟩

/-- A log filesystem where today has fileClean. -/
def fsClean : LogFS := ⟨todayStr, [(logPath gwPath todayStr, fileClean)]⟩

/-! Helper lemmas about the log tailer. -/

/-- A missing file for today yields the sentinel as a success. -/
theorem read_gateway_logs_absent (fs : LogFS) (gp : String) (n : Nat)
    (h : fs.files.lookup (logPath gp fs.today) = none) :
    read_gateway_logs fs gp n = .ok noLogsSentinel := by
  simp [read_gateway_logs, h]

/-- A present, openable file yields the joined tail of its decoded lines. -/
theorem read_gateway_logs_present (fs : LogFS) (gp : String) (n : Nat) (f : LogFile)
    (h : fs.files.lookup (logPath gp fs.today) = some f) (ho : f.openable = true) :
    read_gateway_logs fs gp n = .ok (tailOfDecoded (f.events.filterMap id) n) := by
  simp [read_gateway_logs, h, ho]

/-- The start index of the tail window drops all but the last
min maxLines totalLines lines. -/
theorem tailStart_eq_sub_min (L n : Nat) : tailStart L n = L - min n L := by
  unfold tailStart; split <;> omega

/-- Splitting at newlines always yields at least one segment. -/
theorem splitNl_ne_nil (c : List Char) : splitNl c ≠ [] := by
  induction c with
  | nil => simp [splitNl]
  | cons a as ih =>
    simp only [splitNl]
    split
    · simp
    · split <;> simp

/-- No segment produced by splitNl contains a newline character. -/
theorem nl_not_mem_of_mem_splitNl (c : List Char) :
    ∀ l ∈ splitNl c, '\n' ∉ l := by
  induction c with
  | nil => intro l hl; simp [splitNl] at hl; simp [hl]
  | cons a as ih =>
    intro l hl
    by_cases ha : a = '\n'
    · simp only [splitNl, if_pos ha] at hl
      rcases List.mem_cons.mp hl with h | h
      · subst h; simp
      · exact ih l h
    · simp only [splitNl, if_neg ha] at hl
      rcases hsp : splitNl as with _ | ⟨hd, tl⟩
      · rw [hsp] at hl
        simp at hl
        subst hl
        simp only [List.mem_singleton]
        exact fun h => ha h.symm
      · rw [hsp] at hl
        rcases List.mem_cons.mp hl with h | h
        · subst h
          intro hmem
          rcases List.mem_cons.mp hmem with h1 | h1
          · exact ha h1.symm
          · exact ih hd (by rw [hsp]; exact List.mem_cons_self _ _) h1
        · exact ih l (by rw [hsp]; exact List.mem_cons_of_mem _ h)

/-- Stripping a trailing carriage return only removes characters. -/
theorem stripCR_sublist (l : List Char) : (stripCR l).Sublist l := by
  unfold stripCR
  split
  · exact List.dropLast_sublist l
  · exact List.Sublist.refl l

/-- The decoded lines keep the no-newline property of the segments. -/
theorem nl_not_mem_of_mem_linesOfParts (ps : List (List Char))
    (hps : ∀ p ∈ ps, '\n' ∉ p) : ∀ l ∈ linesOfParts ps, '\n' ∉ l := by
  induction ps with
  | nil => intro l hl; simp [linesOfParts] at hl
  | cons p ps ih =>
    intro l hl
    cases ps with
    | nil =>
      simp only [linesOfParts] at hl
      split at hl
      · simp at hl
      · simp at hl
        subst hl
        exact hps _ (List.mem_cons_self _ _)
    | cons q qs =>
      simp only [linesOfParts] at hl
      rcases List.mem_cons.mp hl with h | h
      · subst h
        intro hmem
        exact hps p (List.mem_cons_self _ _) ((stripCR_sublist p).subset hmem)
      · exact ih (fun r hr => hps r (List.mem_cons_of_mem _ hr)) l h

/-- No decoded line of a text file contains a newline character. -/
theorem nl_not_mem_of_mem_rustLines (c : List Char) :
    ∀ l ∈ rustLines c, '\n' ∉ l :=
  nl_not_mem_of_mem_linesOfParts (splitNl c) (nl_not_mem_of_mem_splitNl c)

/-- The last element witnessed by getLast? is a member of the list. -/
theorem mem_of_getLast?_eq_some {α : Type} {l : List α} {a : α}
    (h : l.getLast? = some a) : a ∈ l := by
  cases l with
  | nil => simp at h
  | cons b bs =>
    have hne : b :: bs ≠ [] := by simp
    rw [List.getLast?_eq_getLast _ hne, Option.some.injEq] at h
    exact h ▸ List.getLast_mem hne

/-- Joining a nonempty list of lines whose last line is nonempty yields a
nonempty result. -/
theorem joinNl_ne_nil (ls : List (List Char)) (hne : ls ≠ [])
    (hlast : ls.getLast? ≠ some []) : joinNl ls ≠ [] := by
  cases ls with
  | nil => exact absurd rfl hne
  | cons a as =>
    cases as with
    | nil =>
      simp only [joinNl]
      intro h
      exact hlast (by simp [h])
    | cons b bs =>
      simp [joinNl]

/-- A join of newline-free lines whose last line is nonempty does not end
in a newline character. -/
theorem joinNl_getLast?_ne_nl (ls : List (List Char))
    (hmem : ∀ l ∈ ls, '\n' ∉ l) (hlast : ls.getLast? ≠ some []) :
    (joinNl ls).getLast? ≠ some '\n' := by
  induction ls with
  | nil => simp [joinNl]
  | cons a as ih =>
    cases as with
    | nil =>
      simp only [joinNl]
      intro h
      exact hmem a (List.mem_cons_self _ _) (mem_of_getLast?_eq_some h)
    | cons b bs =>
      simp only [joinNl]
      have hlast' : (b :: bs).getLast? ≠ some [] := by
        rw [List.getLast?_cons_cons] at hlast; exact hlast
      have hmem' : ∀ l ∈ b :: bs, '\n' ∉ l :=
        fun l hl => hmem l (List.mem_cons_of_mem _ hl)
      have hne : joinNl (b :: bs) ≠ [] := joinNl_ne_nil _ (by simp) hlast'
      have ihx := ih hmem' hlast'
      rw [List.getLast?_append]
      rcases hJ : joinNl (b :: bs) with _ | ⟨x, xs⟩
      · exact absurd hJ hne
      · rw [hJ] at ihx
        rw [List.getLast?_cons_cons]
        rcases hz : (x :: xs).getLast? with _ | z
        · have hxne : x :: xs ≠ [] := by simp
          rw [List.getLast?_eq_getLast _ hxne] at hz
          exact absurd hz (by simp)
        · rw [hz] at ihx
          exact ihx

/-! Theorems for the claims. -/

/-- C1: for every existing, openable log file whose decoded lines are
L1..LtotalLines and every maxLines, read_gateway_logs returns the last
min maxLines totalLines decoded lines joined with newline separators in
original order; the drop index leaves exactly that suffix, so with fifty
lines and maxLines ten it is L41..L50, with maxLines one hundred all fifty
lines, with maxLines zero the empty join, and with no lines at all the
empty join. -/
theorem c1_tail_window (fs : LogFS) (gp : String) (n : Nat) (f : LogFile)
    (hf : fs.files.lookup (logPath gp fs.today) = some f)
    (ho : f.openable = true) :
    read_gateway_logs fs gp n =
      .ok (joinNl ((f.events.filterMap id).drop
        ((f.events.filterMap id).length - min n (f.events.filterMap id).length))) := by
  rw [read_gateway_logs_present fs gp n f hf ho]
  unfold tailOfDecoded
  rw [tailStart_eq_sub_min]

/-- C1 witness: on the concrete fifty-line file with maxLines ten the
result is the lines 41 .. 50 joined by newlines. -/
theorem c1_tail_window_witness :
    read_gateway_logs fs50 gwPath 10 =
      .ok "41\n42\n43\n44\n45\n46\n47\n48\n49\n50".data := by
  rw [c1_tail_window fs50 gwPath 10 file50 rfl rfl]
  rfl

/-- C4: whenever the dated path for today does not exist,
read_gateway_logs returns exactly the sentinel text as a success, for
every base directory and every maxLines. -/
theorem c4_absent_sentinel (fs : LogFS) (gateway_path : String) (maxLines : Nat)
    (h : fs.files.lookup (logPath gateway_path fs.today) = none) :
    read_gateway_logs fs gateway_path maxLines = .ok noLogsSentinel :=
  read_gateway_logs_absent fs gateway_path maxLines h

/-- C4 witness: the empty log filesystem yields the sentinel. -/
theorem c4_absent_sentinel_witness :
    read_gateway_logs fsNoToday gwPath 5 = .ok noLogsSentinel :=
  c4_absent_sentinel fsNoToday gwPath 5 rfl

/-- C5: read_gateway_logs fails if and only if the target log file exists
but cannot be opened; in particular a missing file never produces an
error. -/
theorem c5_error_iff_open_fails (fs : LogFS) (gateway_path : String) (maxLines : Nat) :
    (∃ e, read_gateway_logs fs gateway_path maxLines = .error e) ↔
    (∃ f, fs.files.lookup (logPath gateway_path fs.today) = some f ∧
      f.openable = false) := by
  rcases h : fs.files.lookup (logPath gateway_path fs.today) with _ | f
  · simp [read_gateway_logs, h]
  · cases ho : f.openable
    · simp [read_gateway_logs, h, ho]
    · simp [read_gateway_logs, h, ho]

/-- C6: a log file named for any date other than today is never matched:
when the file at the path for today is absent, the sentinel is returned
even though a file for the other date exists. -/
theorem c6_other_dates_unmatched (fs : LogFS) (gateway_path other : String)
    (maxLines : Nat)
    (hother : other ≠ fs.today)
    (hex : (fs.files.lookup (logPath gateway_path other)).isSome = true)
    (habs : fs.files.lookup (logPath gateway_path fs.today) = none) :
    read_gateway_logs fs gateway_path maxLines = .ok noLogsSentinel :=
  read_gateway_logs_absent fs gateway_path maxLines habs

/-- C6 witness: with only a file dated yesterday on disk, the sentinel is
returned. -/
theorem c6_other_dates_unmatched_witness :
    read_gateway_logs fsYesterday gwPath 3 = .ok noLogsSentinel :=
  c6_other_dates_unmatched fsYesterday gwPath yesterdayStr 3 (by decide) rfl rfl

/-- C7: on an existing, openable file, read_gateway_logs never surfaces an
error for decode failures, and the result depends only on the
successfully decoded lines: any file with the same decoded lines (and any
interleaving of decode failures) yields the same result. -/
theorem c7_decode_failures_silent (fs : LogFS) (gp : String) (n : Nat) (f : LogFile)
    (hf : fs.files.lookup (logPath gp fs.today) = some f)
    (ho : f.openable = true) :
    (∃ r, read_gateway_logs fs gp n = .ok r) ∧
    ∀ (fs₂ : LogFS) (gp₂ : String) (f₂ : LogFile),
      fs₂.files.lookup (logPath gp₂ fs₂.today) = some f₂ →
      f₂.openable = true →
      f₂.events.filterMap id = f.events.filterMap id →
      read_gateway_logs fs₂ gp₂ n = read_gateway_logs fs gp n := by
  constructor
  · exact ⟨_, read_gateway_logs_present fs gp n f hf ho⟩
  · intro fs₂ gp₂ f₂ hf₂ ho₂ heq
    rw [read_gateway_logs_present fs gp n f hf ho,
        read_gateway_logs_present fs₂ gp₂ n f₂ hf₂ ho₂, heq]

/-- C7 witness: the file with two decode failures yields a success and the
same result as the failure-free file with the same decoded lines. -/
theorem c7_decode_failures_silent_witness :
    (∃ r, read_gateway_logs fsMix gwPath 9 = .ok r) ∧
    read_gateway_logs fsClean gwPath 9 = read_gateway_logs fsMix gwPath 9 := by
  have h := c7_decode_failures_silent fsMix gwPath 9 fileMix rfl rfl
  exact ⟨h.1, h.2 fsClean gwPath fileClean rfl rfl rfl⟩

/-- C9: the sentinel is not a distinguishable channel: a log file whose
single line is the sentinel text exists in fsSpoof, read_gateway_logs on
it returns the very string that it also returns when no file for today
exists. -/
theorem c9_sentinel_ambiguous :
    fsSpoof.files.lookup (logPath gwPath fsSpoof.today) = some spoofFile ∧
    read_gateway_logs fsSpoof gwPath 10 = .ok noLogsSentinel ∧
    read_gateway_logs fsNoToday gwPath 10 = .ok noLogsSentinel :=
  ⟨rfl, rfl, rfl⟩

/-- C10 counterexample: an existing text log file whose characters end in
two newline characters is returned with a trailing newline: its decoded
lines are the line a and an empty line, joined as a then newline, whose
last character is the newline. -/
theorem c10_trailing_newline_cex :
    fsTrail.files.lookup (logPath gwPath fsTrail.today) = some fileTrail ∧
    fileTrail.events = textEvents ('a' :: '\n' :: '\n' :: []) ∧
    read_gateway_logs fsTrail gwPath 10 = .ok ('a' :: '\n' :: []) ∧
    ('a' :: '\n' :: ([] : List Char)).getLast? = some '\n' :=
  ⟨rfl, rfl, rfl, rfl⟩

/-- C10 amended: line terminators are stripped during line-by-line
reading, so for every existing openable text log file whose last decoded
line is nonempty (in particular a file ending in a single trailing
newline after a nonempty line) the returned string does not end with a
newline character; only when the final decoded line is empty (the file
ends in consecutive newline characters) can the result end with a
newline. -/
theorem c10_no_trailing_newline_amended (fs : LogFS) (gp : String) (n : Nat)
    (f : LogFile) (content : List Char)
    (hf : fs.files.lookup (logPath gp fs.today) = some f)
    (ho : f.openable = true)
    (hev : f.events = textEvents content)
    (hlast : (rustLines content).getLast? ≠ some []) :
    ∃ r, read_gateway_logs fs gp n = .ok r ∧ r.getLast? ≠ some '\n' := by
  refine ⟨_, read_gateway_logs_present fs gp n f hf ho, ?_⟩
  rw [hev]
  unfold textEvents tailOfDecoded
  rw [List.filterMap_map]
  simp only [Function.id_comp, List.filterMap_some]
  apply joinNl_getLast?_ne_nl
  · intro l hl
    exact nl_not_mem_of_mem_rustLines content l
      ((List.drop_sublist _ (rustLines content)).subset hl)
  · rw [List.getLast?_drop]
    split
    · simp
    · exact hlast

/-- C10 amended witness: the file with characters a then newline yields a
result with no trailing newline. -/
theorem c10_no_trailing_newline_amended_witness :
    ∃ r, read_gateway_logs fsOneNl gwPath 4 = .ok r ∧ r.getLast? ≠ some '\n' :=
  c10_no_trailing_newline_amended fsOneNl gwPath 4 fileOneNl
    ('a' :: '\n' :: []) rfl rfl rfl (by decide)

/-- C2: for any text T, write_app_config T followed by read_app_config
returns exactly T, whatever T holds, assuming both calls succeed. -/
theorem c2_write_read_roundtrip (w : AppWorld) (T s : String)
    (hw : (write_app_config w T).2 = .ok ())
    (hr : (read_app_config (write_app_config w T).1).2 = .ok s) :
    s = T := by
  rcases hcd : w.configDirRes with e | d
  · simp [write_app_config, get_app_config_path, hcd] at hw
  · rcases hmk : w.env.mkdirErr with _ | e
    · rcases hwr : w.env.writeErr with _ | e
      · rcases hrd : w.env.readErr with _ | e
        · simp [write_app_config, read_app_config, get_app_config_path,
            create_dir_all, fs_write, read_to_string, List.lookup,
            hcd, hmk, hwr, hrd] at hr
          exact hr.symm
        · simp [write_app_config, read_app_config, get_app_config_path,
            create_dir_all, fs_write, read_to_string, List.lookup,
            hcd, hmk, hwr, hrd] at hr
      · simp [write_app_config, get_app_config_path, create_dir_all,
          fs_write, hcd, hmk, hwr] at hw
    · simp [write_app_config, get_app_config_path, create_dir_all,
        hcd, hmk] at hw

/-- C2 witness: writing the text hello into the fresh world and then
reading yields hello. -/
theorem c2_write_read_roundtrip_witness :
    (write_app_config w0 "hello").2 = .ok () ∧
    (read_app_config (write_app_config w0 "hello").1).2 = .ok "hello" ∧
    "hello" = "hello" :=
  ⟨rfl, rfl, c2_write_read_roundtrip w0 "hello" "hello" rfl rfl⟩

/-- C3: when the config file is absent, a successful read_app_config
returns exactly the default payload, materializes the file with that
payload, creates the parent directory, and a subsequent read (when the
read primitive succeeds) returns the same content without mutating the
world again. -/
theorem c3_first_read_materializes (w : AppWorld) (d s : String)
    (hd : w.configDirRes = .ok d)
    (habs : w.files.lookup (d ++ "/" ++ cfgFileName) = none)
    (hr : (read_app_config w).2 = .ok s) :
    s = default_config_content ∧
    (read_app_config w).1.files.lookup (d ++ "/" ++ cfgFileName) =
      some default_config_content ∧
    d ∈ (read_app_config w).1.dirs ∧
    (w.env.readErr = none →
      read_app_config (read_app_config w).1 =
        ((read_app_config w).1, .ok default_config_content)) := by
  rcases hmk : w.env.mkdirErr with _ | e
  · rcases hwr : w.env.writeErr with _ | e
    · have hcalc : read_app_config w =
        ({ w with
            files := (d ++ "/" ++ cfgFileName, default_config_content) :: w.files,
            dirs := d :: w.dirs }, .ok default_config_content) := by
        simp [read_app_config, get_app_config_path, create_dir_all, fs_write,
          hd, hmk, hwr, habs]
      rw [hcalc] at hr ⊢
      refine ⟨by simpa using hr.symm, by simp [List.lookup], by simp, ?_⟩
      intro hrd
      simp [read_app_config, get_app_config_path, read_to_string,
        List.lookup, hd, hrd]
    · simp [read_app_config, get_app_config_path, create_dir_all, fs_write,
        hd, hmk, hwr, habs] at hr
  · simp [read_app_config, get_app_config_path, create_dir_all,
      hd, hmk, habs] at hr

/-- C3 witness: in the fresh world with no config file, the read
materializes and returns the default payload, and the follow-up read
returns it again unchanged. -/
theorem c3_first_read_materializes_witness :
    (read_app_config w0).2 = .ok default_config_content ∧
    default_config_content = default_config_content ∧
    (read_app_config w0).1.files.lookup ("cfg" ++ "/" ++ cfgFileName) =
      some default_config_content ∧
    "cfg" ∈ (read_app_config w0).1.dirs ∧
    read_app_config (read_app_config w0).1 =
      ((read_app_config w0).1, .ok default_config_content) := by
  have h := c3_first_read_materializes w0 "cfg" default_config_content
    rfl rfl rfl
  exact ⟨rfl, h.1, h.2.1, h.2.2.1, h.2.2.2 rfl⟩

/-- C8: with a resolved config directory d, a successful write has created
the parent directory d and stored the given text; a write fails only when
directory creation or the file write fails, and when directory creation
fails the files are untouched; and with the config file absent the same
three statements hold of read_app_config, which stores the default
payload. -/
theorem c8_parent_dir_creation (w : AppWorld) (d T : String)
    (hd : w.configDirRes = .ok d) :
    ((write_app_config w T).2 = .ok () →
      d ∈ (write_app_config w T).1.dirs ∧
      (write_app_config w T).1.files.lookup (d ++ "/" ++ cfgFileName) = some T) ∧
    ((∃ e, (write_app_config w T).2 = .error e) →
      w.env.mkdirErr.isSome ∨ w.env.writeErr.isSome) ∧
    (w.env.mkdirErr.isSome → (write_app_config w T).1.files = w.files) ∧
    (w.files.lookup (d ++ "/" ++ cfgFileName) = none →
      ((∃ s, (read_app_config w).2 = .ok s) →
        d ∈ (read_app_config w).1.dirs ∧
        (read_app_config w).1.files.lookup (d ++ "/" ++ cfgFileName) =
          some default_config_content) ∧
      ((∃ e, (read_app_config w).2 = .error e) →
        w.env.mkdirErr.isSome ∨ w.env.writeErr.isSome) ∧
      (w.env.mkdirErr.isSome → (read_app_config w).1.files = w.files)) := by
  rcases hmk : w.env.mkdirErr with _ | e
  · rcases hwr : w.env.writeErr with _ | e
    · refine ⟨?_, ?_, ?_, ?_⟩
      · intro _
        constructor
        · simp [write_app_config, get_app_config_path, create_dir_all,
            fs_write, hd, hmk, hwr]
        · simp [write_app_config, get_app_config_path, create_dir_all,
            fs_write, List.lookup, hd, hmk, hwr]
      · rintro ⟨e, he⟩
        simp [write_app_config, get_app_config_path, create_dir_all,
          fs_write, hd, hmk, hwr] at he
      · intro hms
        simp at hms
      · intro habs
        refine ⟨?_, ?_, ?_⟩
        · intro _
          constructor
          · simp [read_app_config, get_app_config_path, create_dir_all,
              fs_write, hd, hmk, hwr, habs]
          · simp [read_app_config, get_app_config_path, create_dir_all,
              fs_write, List.lookup, hd, hmk, hwr, habs]
        · rintro ⟨e, he⟩
          simp [read_app_config, get_app_config_path, create_dir_all,
            fs_write, hd, hmk, hwr, habs] at he
        · intro hms
          simp at hms
    · refine ⟨?_, ?_, ?_, ?_⟩
      · intro hok
        simp [write_app_config, get_app_config_path, create_dir_all,
          fs_write, hd, hmk, hwr] at hok
      · intro _
        right
        rfl
      · intro hms
        simp at hms
      · intro habs
        refine ⟨?_, ?_, ?_⟩
        · rintro ⟨s, hs⟩
          simp [read_app_config, get_app_config_path, create_dir_all,
            fs_write, hd, hmk, hwr, habs] at hs
        · intro _
          right
          rfl
        · intro hms
          simp at hms
  · refine ⟨?_, ?_, ?_, ?_⟩
    · intro hok
      simp [write_app_config, get_app_config_path, create_dir_all,
        hd, hmk] at hok
    · intro _
      left
      rfl
    · intro _
      simp [write_app_config, get_app_config_path, create_dir_all, hd, hmk]
    · intro habs
      refine ⟨?_, ?_, ?_⟩
      · rintro ⟨s, hs⟩
        simp [read_app_config, get_app_config_path, create_dir_all,
          hd, hmk, habs] at hs
      · intro _
        left
        rfl
      · intro _
        simp [read_app_config, get_app_config_path, create_dir_all,
          hd, hmk, habs]

/-- C8 witness: in the fresh world, the successful write has created the
directory cfg and stored the text, and with the config file absent the
successful read has created cfg and stored the default payload. -/
theorem c8_parent_dir_creation_witness :
    ((write_app_config w0 "x").2 = .ok () ∧
      "cfg" ∈ (write_app_config w0 "x").1.dirs ∧
      (write_app_config w0 "x").1.files.lookup ("cfg" ++ "/" ++ cfgFileName) =
        some "x") ∧
    (w0.files.lookup ("cfg" ++ "/" ++ cfgFileName) = none ∧
      "cfg" ∈ (read_app_config w0).1.dirs ∧
      (read_app_config w0).1.files.lookup ("cfg" ++ "/" ++ cfgFileName) =
        some default_config_content) := by
  have h := c8_parent_dir_creation w0 "cfg" "x" rfl
  have hw := h.1 rfl
  have hrp := (h.2.2.2 rfl).1 ⟨default_config_content, rfl⟩
  exact ⟨⟨rfl, hw.1, hw.2⟩, ⟨rfl, hrp.1, hrp.2⟩⟩

end GatewayApp
